import Mathlib

/-!
A formal model of the observability core of the `orchestrated-ping` Go
service: the ECS structured-log handler (`internal/logger/ecs.go`), the
request-metrics middleware (`internal/middleware/metrics.go`,
`internal/metrics/metrics.go`) and the configuration loader
(`internal/config/config.go`).  Go maps are modelled as association lists
with overwrite-on-insert, Go `time.Duration` and `slog.Level` as integers
(nanoseconds resp. the slog numeric level), and fallible operations as
`Except` values.
-/

/-- Scalar attribute values carried by a log record (a Go `interface{}`
value as it occurs in this program).  `dur n` is a `time.Duration` of `n`
nanoseconds. -/
inductive Value where
  | str (s : String)
  | int (n : Int)
  | dur (ns : Int)
deriving DecidableEq, Repr

/-- The output record built by `ECSHandler.Handle`: a Go
`map[string]interface{}`, modelled as an association list whose insert
overwrites any earlier binding of the same key. -/
abbrev AttrMap := List (String × Value)

/-- Go map assignment `attrs[k] = v`: any earlier binding of `k` is
replaced. -/
def setAttr (m : AttrMap) (k : String) (v : Value) : AttrMap :=
  (m.filter fun p => p.1 ≠ k) ++ [(k, v)]

/-- Go map lookup `attrs[k]`. -/
def lookupAttr (m : AttrMap) (k : String) : Option Value :=
  match m with
  | [] => none
  | p :: t => if p.1 = k then some p.2 else lookupAttr t k

/-- The key half of the `switch key` statement in
`ECSHandler.mapAttribute` (ecs.go lines 61-92): the canonical ECS field
name each attribute key is stored under. -/
def mapAttributeKey (key : String) : String :=
  if key = "method" then "http.request.method"
  else if key = "path" then "url.path"
  else if key = "status" then "http.response.status_code"
  else if key = "bytes" then "http.response.body.bytes"
  else if key = "duration" then "event.duration"
  else if key = "remote_addr" then "client.address"
  else if key = "request_id" then "trace.id"
  else if key = "error" then "error.message"
  else if key = "uptime" then "event.uptime"
  else if key = "port" then "server.port"
  else if key = "environment" then "service.environment"
  else key

/-- Model of `ECSHandler.mapAttribute` (ecs.go lines 61-92): stores `val` under the
canonical field name for `key`; under key `"duration"` a `time.Duration`
value is first converted to its integer count of nanoseconds
(`d.Nanoseconds()`); an unrecognized key is stored verbatim. -/
def mapAttribute (attrs : AttrMap) (key : String) (val : Value) : AttrMap :=
  if key = "method" then setAttr attrs "http.request.method" val
  else if key = "path" then setAttr attrs "url.path" val
  else if key = "status" then setAttr attrs "http.response.status_code" val
  else if key = "bytes" then setAttr attrs "http.response.body.bytes" val
  else if key = "duration" then
    match val with
    | .dur d => setAttr attrs "event.duration" (.int d)
    | v => setAttr attrs "event.duration" v
  else if key = "remote_addr" then setAttr attrs "client.address" val
  else if key = "request_id" then setAttr attrs "trace.id" val
  else if key = "error" then setAttr attrs "error.message" val
  else if key = "uptime" then setAttr attrs "event.uptime" val
  else if key = "port" then setAttr attrs "server.port" val
  else if key = "environment" then setAttr attrs "service.environment" val
  else setAttr attrs key val

/-- The lookup table of `mapAttribute`, as the spec documents it. -/
def attributeTable : List (String × String) :=
  [("method", "http.request.method"),
   ("path", "url.path"),
   ("status", "http.response.status_code"),
   ("bytes", "http.response.body.bytes"),
   ("duration", "event.duration"),
   ("remote_addr", "client.address"),
   ("request_id", "trace.id"),
   ("error", "error.message"),
   ("uptime", "event.uptime"),
   ("port", "server.port"),
   ("environment", "service.environment")]

/-- Constants from `internal/config/config.go` lines 10-14. -/
def ServiceName : String := "orchestrated-ping"

/-- Constant `config.ServiceVersion`. -/
def ServiceVersion : String := "1.0.0"

/-- Constant `config.ECSVersion`. -/
def ECSVersion : String := "8.11.0"

/-- A UTC instant at nanosecond precision, carrying the calendar fields Go
`Time.UTC()` exposes to `Format`. -/
structure Instant where
  year : Nat
  month : Nat
  day : Nat
  hour : Nat
  minute : Nat
  second : Nat
  nsec : Nat
deriving DecidableEq, Repr

/-- Left-pad the decimal rendering of `n` with zeros to width `w`. -/
def padZero (w n : Nat) : String :=
  let s := Nat.repr n
  if s.length < w then String.mk (List.replicate (w - s.length) '0') ++ s else s

/-- The fractional-second part of Go's `RFC3339Nano` layout: omitted when
zero, otherwise `.` plus the 9-digit nanosecond field with trailing zeros
removed. -/
def fracNano (nsec : Nat) : String :=
  if nsec = 0 then ""
  else "." ++ String.mk (((padZero 9 nsec).data.reverse.dropWhile (fun c => c = '0')).reverse)

/-- Rendering `t.UTC().Format(time.RFC3339Nano)` for a UTC instant `t`. -/
def formatRFC3339Nano (t : Instant) : String :=
  padZero 4 t.year ++ "-" ++ padZero 2 t.month ++ "-" ++ padZero 2 t.day ++ "T" ++
  padZero 2 t.hour ++ ":" ++ padZero 2 t.minute ++ ":" ++ padZero 2 t.second ++
  fracNano t.nsec ++ "Z"

/-- slog level constants: `LevelDebug = -4`, `LevelInfo = 0`,
`LevelWarn = 4`, `LevelError = 8`. -/
def LevelDebug : Int := -4

/-- Constant `slog.LevelInfo`. -/
def LevelInfo : Int := 0

/-- Constant `slog.LevelWarn`. -/
def LevelWarn : Int := 4

/-- Constant `slog.LevelError`. -/
def LevelError : Int := 8

/-- The offset suffix of `slog.Level.String`: empty at the named level,
otherwise a signed decimal offset. -/
def levelOffset (base : String) (d : Int) : String :=
  if d = 0 then base
  else if 0 < d then base ++ "+" ++ Int.repr d
  else base ++ Int.repr d

/-- Rendering of `slog.Level.String()`. -/
def levelString (l : Int) : String :=
  if l < LevelInfo then levelOffset "DEBUG" (l - LevelDebug)
  else if l < LevelWarn then levelOffset "INFO" (l - LevelInfo)
  else if l < LevelError then levelOffset "WARN" (l - LevelWarn)
  else levelOffset "ERROR" (l - LevelError)

/-- A `slog.Record`: timestamp, numeric level, message, and the attributes
visited by `r.Attrs` in order. -/
structure Record where
  time : Instant
  level : Int
  message : String
  attrs : List (String × Value)
deriving DecidableEq, Repr

/-- The `ECSHandler` struct (ecs.go lines 14-18).  `sink` identifies the
writer handed to the wrapped `slog.JSONHandler`; `boundAttrs` and `groups`
are the attribute/group state accumulated inside that wrapped handler by
`WithAttrs`/`WithGroup`; `minLevel` is the wrapped handler's level option. -/
structure ECSHandler where
  sink : Nat
  boundAttrs : List (String × Value)
  groups : List String
  minLevel : Int
  serviceName : String
  version : String
deriving DecidableEq, Repr

/-- Constructor `NewECSHandler(w, serviceName, version)` (ecs.go lines 20-28): wraps a
`slog.NewJSONHandler` over `w` at minimum level `slog.LevelInfo`. -/
def NewECSHandler (w : Nat) (serviceName version : String) : ECSHandler :=
  { sink := w, boundAttrs := [], groups := [], minLevel := LevelInfo,
    serviceName := serviceName, version := version }

/-- Model of `ECSHandler.Enabled` (ecs.go lines 30-32), delegating to the wrapped
JSON handler: a level is enabled when it is at least the handler's minimum
level. -/
def Enabled (h : ECSHandler) (l : Int) : Bool :=
  h.minLevel ≤ l

/-- Model of `ECSHandler.WithAttrs` (ecs.go lines 94-100): a fresh `ECSHandler`
whose wrapped handler is `h.handler.WithAttrs(attrs)`, with the same
service identity. -/
def WithAttrs (h : ECSHandler) (attrs : List (String × Value)) : ECSHandler :=
  { h with boundAttrs := h.boundAttrs ++ attrs }

/-- Model of `ECSHandler.WithGroup` (ecs.go lines 102-108): a fresh `ECSHandler`
whose wrapped handler is `h.handler.WithGroup(name)`, with the same
service identity. -/
def WithGroup (h : ECSHandler) (name : String) : ECSHandler :=
  { h with groups := h.groups ++ [name] }

/-- The fixed part of the record `ECSHandler.Handle` builds (ecs.go lines
35-43): the four fixed fields, then the two service-identity fields, in
source order. -/
def baseRecord (h : ECSHandler) (r : Record) : AttrMap :=
  setAttr
    (setAttr
      (setAttr
        (setAttr
          (setAttr
            (setAttr [] "@timestamp" (.str (formatRFC3339Nano r.time)))
            "ecs.version" (.str ECSVersion))
          "message" (.str r.message))
        "log.level" (.str (levelString r.level)))
      "service.name" (.str h.serviceName))
    "service.version" (.str h.version)

/-- The record-building half of `ECSHandler.Handle` (ecs.go lines 35-48):
the fixed fields, then each record attribute inserted through
`mapAttribute`.  Note the source reads only `r` and the identity fields:
the wrapped handler's bound attributes and groups are not consulted. -/
def buildRecord (h : ECSHandler) (r : Record) : AttrMap :=
  r.attrs.foldl (fun m p => mapAttribute m p.1 p.2) (baseRecord h r)

/-- One character of Go `encoding/json` string escaping (the escapes this
program's values can need). -/
def escChar (c : Char) : String :=
  if c = '"' then "\\\""
  else if c = '\\' then "\\\\"
  else if c = '\n' then "\\n"
  else String.singleton c

/-- A JSON string literal. -/
def renderString (s : String) : String :=
  "\"" ++ (s.data.foldr (fun c acc => escChar c ++ acc) "") ++ "\""

/-- JSON rendering of one attribute value (`json.Marshal` renders a
`time.Duration` as its integer nanosecond count). -/
def renderValue : Value → String
  | .str s => renderString s
  | .int n => Int.repr n
  | .dur n => Int.repr n

/-- Insert an entry into a key-sorted list, keeping it sorted. -/
def insertSorted (p : String × Value) : AttrMap → AttrMap
  | [] => [p]
  | q :: t => if p.1 ≤ q.1 then p :: q :: t else q :: insertSorted p t

/-- Sort a record by key, as `json.Marshal` does for Go maps. -/
def sortByKey (m : AttrMap) : AttrMap :=
  m.foldr insertSorted []

/-- Go `json.Marshal` of the output record: one JSON object, keys sorted. -/
def jsonMarshal (m : AttrMap) : String :=
  "\x7b" ++
    String.intercalate "," ((sortByKey m).map fun p => renderString p.1 ++ ":" ++ renderValue p.2) ++
  "\x7d"

/-- Model of `ECSHandler.Handle` (ecs.go lines 34-59): builds the output record,
marshals it, writes the line and a `"\n"` separator to standard output,
and returns `nil`.  The returned pair is (the Go return value, the
strings written to standard output). -/
def Handle (h : ECSHandler) (r : Record) : Except String Unit × List String :=
  (Except.ok (), [jsonMarshal (buildRecord h r), "\n"])

/-- Model of `ECSHandler.Handle` with the outcomes of `json.Marshal` and
`os.Stdout.Write` abstracted, keeping the source's control flow exactly: a
marshal error is returned; the results of both `Write` calls are
discarded and `nil` is returned. -/
def HandleF (marshal : AttrMap → Except String String)
    (write : String → Except String Nat) (h : ECSHandler) (r : Record) :
    Except String Unit :=
  let attrs := buildRecord h r
  match marshal attrs with
  | .error e => .error e
  | .ok b =>
    let _ := write b
    let _ := write "\n"
    .ok ()

/-- The `slog.Logger` front end dispatching one record to the handler: the
record is handled (and output produced) only when its level is enabled. -/
def logOutput (h : ECSHandler) (r : Record) : List String :=
  if Enabled h r.level then (Handle h r).2 else []

/-- ASCII decimal digit test, as Go spells it (`'0' <= c && c <= '9'`). -/
def isDigitCh (c : Char) : Bool :=
  '0' ≤ c ∧ c ≤ '9'

/-- Decimal value of a digit string. -/
def digitsToNat (ds : List Char) : Nat :=
  ds.foldl (fun a c => a * 10 + (c.toNat - 48)) 0

/-- Nanosecond scale of a Go duration unit (`time.ParseDuration`'s unit
map). -/
def durUnitScale (u : String) : Option Int :=
  if u = "ns" then some 1
  else if u = "us" then some 1000
  else if u = "µs" then some 1000
  else if u = "μs" then some 1000
  else if u = "ms" then some 1000000
  else if u = "s" then some 1000000000
  else if u = "m" then some 60000000000
  else if u = "h" then some 3600000000000
  else none

/-- The chunk loop of Go `time.ParseDuration`: repeatedly parse
digits, an optional fraction, and a unit, and sum the scaled values.
Overflow checking is omitted and fractional parts are combined by exact
integer division in place of Go's float arithmetic; the grammar (which
inputs are accepted) is the source's.  The first argument is
termination fuel, at least the length of the char list. -/
def parseChunks : Nat → List Char → Option Int
  | _, [] => some 0
  | 0, _ => none
  | fuel + 1, c :: cs =>
    if ¬(isDigitCh c ∨ c = '.') then none
    else
      let (ds, r1) := (c :: cs).span isDigitCh
      let v : Nat := digitsToNat ds
      let fr : List Char × List Char × Bool :=
        match r1 with
        | '.' :: rest =>
          let (fs, rr) := rest.span isDigitCh
          (fs, rr, true)
        | _ => ([], r1, false)
      let fds := fr.1
      let r2 := fr.2.1
      let hasDot := fr.2.2
      if ds = [] ∧ ¬(hasDot ∧ fds ≠ []) then none
      else
        let (us, r3) := r2.span (fun c => ¬(isDigitCh c ∨ c = '.'))
        match durUnitScale (String.mk us) with
        | none => none
        | some scale =>
          let frac : Int := (Int.ofNat (digitsToNat fds)) * scale / (10 ^ fds.length : Nat)
          match parseChunks fuel r3 with
          | none => none
          | some rest => some (Int.ofNat v * scale + frac + rest)

/-- Go `time.ParseDuration`: optional sign, the special case `"0"`, then
one or more number-unit chunks; `none` models a parse error.  The result
is in nanoseconds. -/
def parseDuration (s : String) : Option Int :=
  let cs := s.data
  let sg : Bool × List Char :=
    match cs with
    | '-' :: r => (true, r)
    | '+' :: r => (false, r)
    | r => (false, r)
  let neg := sg.1
  let cs1 := sg.2
  if cs1 = ['0'] then some 0
  else if cs1 = [] then none
  else (parseChunks (cs1.length + 1) cs1).map fun v => if neg then -v else v

/-- Go `strconv.Atoi`: optional sign then one or more decimal digits
(range checking omitted); `none` models a parse error. -/
def atoi (s : String) : Option Int :=
  let cs := s.data
  let sg : Bool × List Char :=
    match cs with
    | '-' :: r => (true, r)
    | '+' :: r => (false, r)
    | r => (false, r)
  let neg := sg.1
  let cs1 := sg.2
  if cs1 = [] then none
  else if cs1.all isDigitCh then
    some (if neg then -(Int.ofNat (digitsToNat cs1)) else Int.ofNat (digitsToNat cs1))
  else none

/-- A process environment as `os.Getenv` sees it: total, returning `""`
for an unset variable. -/
def Env := String → String

/-- One second in nanoseconds (`time.Second`). -/
def second : Int := 1000000000

/-- Model of `config.getEnv` (config.go lines 76-81). -/
def getEnv (env : Env) (key defaultValue : String) : String :=
  if env key ≠ "" then env key else defaultValue

/-- Model of `config.getEnvDuration` (config.go lines 83-90): a set variable that
parses is used; a set variable that fails to parse, or an unset variable,
yields the default. -/
def getEnvDuration (env : Env) (key : String) (defaultValue : Int) : Int :=
  if env key ≠ "" then
    match parseDuration (env key) with
    | some duration => duration
    | none => defaultValue
  else defaultValue

/-- Struct `config.ServerConfig` (durations in nanoseconds). -/
structure ServerConfig where
  port : String
  readTimeout : Int
  writeTimeout : Int
  shutdownTimeout : Int
deriving DecidableEq, Repr

/-- Struct `config.ServiceConfig`. -/
structure ServiceConfig where
  name : String
  version : String
deriving DecidableEq, Repr

/-- Struct `config.Config`. -/
structure Config where
  server : ServerConfig
  service : ServiceConfig
  environment : String
deriving DecidableEq, Repr

/-- Model of `Config.Validate` (config.go lines 56-74): the error returned, or
`none` when the configuration is accepted. -/
def Validate (c : Config) : Option String :=
  if c.server.port = "" then some "server port cannot be empty"
  else if (atoi c.server.port).isNone then some ("invalid port number: " ++ c.server.port)
  else if c.service.name = "" then some "service name cannot be empty"
  else if c.service.version = "" then some "service version cannot be empty"
  else none

/-- Model of `config.Load` (config.go lines 34-54): build the configuration from
the environment with the documented defaults, validate it, and return it
or the wrapped validation error. -/
def Load (env : Env) : Except String Config :=
  let cfg : Config :=
    { server :=
        { port := getEnv env "PORT" "8080",
          readTimeout := getEnvDuration env "READ_TIMEOUT" (15 * second),
          writeTimeout := getEnvDuration env "WRITE_TIMEOUT" (15 * second),
          shutdownTimeout := getEnvDuration env "SHUTDOWN_TIMEOUT" (30 * second) },
      service := { name := ServiceName, version := ServiceVersion },
      environment := getEnv env "ENVIRONMENT" "development" }
  match Validate cfg with
  | some e => .error ("invalid configuration: " ++ e)
  | none => .ok cfg

/-- One call a handler makes on its `http.ResponseWriter`. -/
inductive WOp where
  | writeHeader (code : Nat)
  | write (body : String)
deriving DecidableEq, Repr

/-- The state of the middleware's `responseWriter` proxy plus the
underlying `net/http` writer it wraps: `statusCode` is the proxy's
recorded field (metrics.go line 32), `sent` the status actually committed
by the underlying writer (`none` until headers are sent), `body` the bytes
written through. -/
structure RWState where
  statusCode : Nat
  sent : Option Nat
  body : String
deriving DecidableEq, Repr

/-- One writer call against the proxy.  `WriteHeader` (metrics.go lines
35-38) records the code in the proxy and forwards it; the underlying
writer commits only the first status it receives.  `Write` is the promoted
method of the embedded writer: it bypasses the proxy, committing status
200 if none was sent yet. -/
def applyOp (s : RWState) : WOp → RWState
  | .writeHeader code =>
    { s with statusCode := code,
             sent := if s.sent.isNone then some code else s.sent }
  | .write b =>
    { s with sent := if s.sent.isNone then some 200 else s.sent,
             body := s.body ++ b }

/-- Run a handler (a sequence of writer calls) against a fresh proxy,
initialized with `statusCode: http.StatusOK` (metrics.go line 16). -/
def runWriter (ops : List WOp) : RWState :=
  ops.foldl applyOp { statusCode := 200, sent := none, body := "" }

/-- The status code a `WOp` carries, if it is a `WriteHeader` call. -/
def headerOf : WOp → Option Nat
  | .writeHeader c => some c
  | .write _ => none

/-- The code of the last `WriteHeader` call in a handler run, if any. -/
def lastWriteHeader : List WOp → Option Nat
  | [] => none
  | op :: t =>
    match lastWriteHeader t with
    | some c => some c
    | none => headerOf op

/-- The code of the first `WriteHeader` call in a handler run, if any. -/
def firstWriteHeader (ops : List WOp) : Option Nat :=
  match ops with
  | [] => none
  | .writeHeader c :: _ => some c
  | .write _ :: t => firstWriteHeader t

/-- One call into the Prometheus metric vectors of `internal/metrics`. -/
inductive MetricCall where
  | observe (name method endpoint status : String) (value : Int)
  | inc (name method endpoint status : String)
deriving DecidableEq, Repr

/-- The `middleware.Metrics` wrapper (metrics.go lines 12-28) after the
wrapped handler returns: the handler's writer calls are run against the
proxy, and one histogram observation plus one counter increment are
issued, labeled with the request method, the matched chi route pattern
(`rawPath`, the raw URL path, is available but unused) and the proxy's
recorded status rendered by `strconv.Itoa`.  `duration` is the elapsed
time observed. -/
def metricsMiddleware (method rawPath routePattern : String) (duration : Int)
    (ops : List WOp) : List MetricCall :=
  let ww := runWriter ops
  let statusCode := Nat.repr ww.statusCode
  [MetricCall.observe "http_request_duration_seconds" method routePattern statusCode duration,
   MetricCall.inc "http_requests_total" method routePattern statusCode]

/-- The value actually stored by `mapAttribute`: unchanged except that a
`time.Duration` under key `"duration"` becomes its nanosecond count. -/
def normDurVal (key : String) (v : Value) : Value :=
  if key = "duration" then
    match v with
    | .dur d => .int d
    | v => v
  else v

/-- The six field names `Handle` writes before visiting the record's
attributes: the four fixed fields and the two service-identity fields. -/
def fixedFieldNames : List String :=
  ["@timestamp", "ecs.version", "message", "log.level", "service.name", "service.version"]

/-- Is this metric call an increment of the named counter? -/
def isIncOf (name : String) : MetricCall → Bool
  | .inc n _ _ _ => n = name
  | .observe _ _ _ _ _ => false

/-- Is this metric call an observation on the named histogram? -/
def isObserveOf (name : String) : MetricCall → Bool
  | .observe n _ _ _ _ => n = name
  | .inc _ _ _ _ => false

/-- An environment with every variable unset. -/
def envEmpty : Env := fun _ => ""

/-- An environment whose only set variable is `READ_TIMEOUT`, holding a
string `time.ParseDuration` rejects. -/
def envBogus : Env := fun k => if k = "READ_TIMEOUT" then "bogus" else ""

/-- The configuration `Load` produces in an empty environment. -/
def cfgDefault : Config :=
  { server :=
      { port := "8080", readTimeout := 15 * second, writeTimeout := 15 * second,
        shutdownTimeout := 30 * second },
    service := { name := ServiceName, version := ServiceVersion },
    environment := "development" }

theorem lookupAttr_append (l1 l2 : AttrMap) (k : String) :
    lookupAttr (l1 ++ l2) k =
      match lookupAttr l1 k with
      | some v => some v
      | none => lookupAttr l2 k := by
  induction l1 with
  | nil => rfl
  | cons p t ih =>
    by_cases hp : p.1 = k
    · simp [lookupAttr, hp]
    · simp [lookupAttr, hp, ih]

theorem lookupAttr_filter_ne (m : AttrMap) (k : String) :
    lookupAttr (m.filter fun p => p.1 ≠ k) k = none := by
  induction m with
  | nil => rfl
  | cons p t ih =>
    by_cases hp : p.1 = k
    · simpa [List.filter_cons, hp] using ih
    · simpa [List.filter_cons, hp, lookupAttr] using ih

theorem lookupAttr_filter_preserve (m : AttrMap) (k k' : String) (hne : k ≠ k') :
    lookupAttr (m.filter fun p => p.1 ≠ k) k' = lookupAttr m k' := by
  induction m with
  | nil => rfl
  | cons p t ih =>
    by_cases hp : p.1 = k
    · simpa [List.filter_cons, hp, lookupAttr, hne] using ih
    · by_cases hp' : p.1 = k'
      · simp [List.filter_cons, hp, lookupAttr, hp', hne, Ne.symm hne]
      · simpa [List.filter_cons, hp, lookupAttr, hp'] using ih

theorem lookup_setAttr_same (m : AttrMap) (k : String) (v : Value) :
    lookupAttr (setAttr m k v) k = some v := by
  unfold setAttr
  rw [lookupAttr_append, lookupAttr_filter_ne]
  simp [lookupAttr]

theorem lookup_setAttr_other (m : AttrMap) (k k' : String) (v : Value) (hne : k ≠ k') :
    lookupAttr (setAttr m k v) k' = lookupAttr m k' := by
  unfold setAttr
  rw [lookupAttr_append, lookupAttr_filter_preserve m k k' hne]
  cases h : lookupAttr m k' with
  | some w => rfl
  | none => simp [lookupAttr, hne]

theorem mapAttribute_eq_setAttr (attrs : AttrMap) (key : String) (val : Value) :
    mapAttribute attrs key val = setAttr attrs (mapAttributeKey key) (normDurVal key val) := by
  by_cases h1 : key = "method"
  · subst h1; rfl
  by_cases h2 : key = "path"
  · subst h2; rfl
  by_cases h3 : key = "status"
  · subst h3; rfl
  by_cases h4 : key = "bytes"
  · subst h4; rfl
  by_cases h5 : key = "duration"
  · subst h5; cases val <;> rfl
  by_cases h6 : key = "remote_addr"
  · subst h6; rfl
  by_cases h7 : key = "request_id"
  · subst h7; rfl
  by_cases h8 : key = "error"
  · subst h8; rfl
  by_cases h9 : key = "uptime"
  · subst h9; rfl
  by_cases h10 : key = "port"
  · subst h10; rfl
  by_cases h11 : key = "environment"
  · subst h11; rfl
  simp [mapAttribute, mapAttributeKey, normDurVal, h1, h2, h3, h4, h5, h6, h7, h8, h9,
    h10, h11]

theorem lookup_foldl_mapAttribute (as : List (String × Value)) (m : AttrMap) (k0 : String)
    (hk : ∀ p ∈ as, mapAttributeKey p.1 ≠ k0) :
    lookupAttr (as.foldl (fun m p => mapAttribute m p.1 p.2) m) k0 = lookupAttr m k0 := by
  induction as generalizing m with
  | nil => rfl
  | cons p t ih =>
    rw [List.foldl_cons, ih _ fun q hq => hk q (List.mem_cons_of_mem p hq),
      mapAttribute_eq_setAttr]
    exact lookup_setAttr_other _ _ _ _ (hk p (List.mem_cons_self p t))

theorem foldl_applyOp_statusCode (ops : List WOp) (s : RWState) :
    (ops.foldl applyOp s).statusCode = (lastWriteHeader ops).getD s.statusCode := by
  induction ops generalizing s with
  | nil => rfl
  | cons op t ih =>
    rw [List.foldl_cons, ih]
    cases hlt : lastWriteHeader t with
    | some c => simp [lastWriteHeader, hlt]
    | none =>
      cases op with
      | writeHeader c => simp [lastWriteHeader, hlt, headerOf, applyOp]
      | write b => simp [lastWriteHeader, hlt, headerOf, applyOp]

/-- C1: every key in the attribute lookup table maps to its documented
canonical output field name; every key outside the table maps to itself;
and `mapAttribute` always stores its value under exactly that mapped key
(it is a pure, total, deterministic function, never an error). -/
theorem c1_attribute_mapping :
    (∀ p ∈ attributeTable, mapAttributeKey p.1 = p.2) ∧
    (∀ k : String, k ∉ attributeTable.map Prod.fst → mapAttributeKey k = k) ∧
    (∀ (attrs : AttrMap) (k : String) (v : Value),
      mapAttribute attrs k v = setAttr attrs (mapAttributeKey k) (normDurVal k v)) := by
  refine ⟨by decide, ?_, mapAttribute_eq_setAttr⟩
  intro k hk
  have hne : ∀ s ∈ attributeTable.map Prod.fst, k ≠ s := fun s hs he => hk (he ▸ hs)
  unfold mapAttributeKey
  rw [if_neg (hne "method" (by decide)), if_neg (hne "path" (by decide)),
    if_neg (hne "status" (by decide)), if_neg (hne "bytes" (by decide)),
    if_neg (hne "duration" (by decide)), if_neg (hne "remote_addr" (by decide)),
    if_neg (hne "request_id" (by decide)), if_neg (hne "error" (by decide)),
    if_neg (hne "uptime" (by decide)), if_neg (hne "port" (by decide)),
    if_neg (hne "environment" (by decide))]

/-- C1 witness: the table maps `duration` to `event.duration`, and the
untabled key `zzz` maps to itself. -/
theorem c1_attribute_mapping_witness :
    mapAttributeKey "duration" = "event.duration" ∧ mapAttributeKey "zzz" = "zzz" :=
  ⟨c1_attribute_mapping.1 ("duration", "event.duration") (by decide),
   c1_attribute_mapping.2.1 "zzz" (by decide)⟩

/-- C2 (code bug): `WithAttrs`/`WithGroup` do return a fresh encoder value
with the same sink and service identity, and the parent is untouched, but
the pre-bound attributes and the group prefix never reach the output:
`Handle` ignores the wrapped handler's state, so every output record of
the derived encoder is identical to the parent's, and a bound attribute
key is absent from the derived encoder's records. -/
theorem c2_bound_attrs_dropped :
    (∀ (h : ECSHandler) (as : List (String × Value)) (r : Record),
      Handle (WithAttrs h as) r = Handle h r ∧
      (WithAttrs h as).sink = h.sink ∧
      (WithAttrs h as).serviceName = h.serviceName ∧
      (WithAttrs h as).version = h.version) ∧
    (∀ (h : ECSHandler) (g : String) (r : Record),
      Handle (WithGroup h g) r = Handle h r ∧
      (WithGroup h g).sink = h.sink ∧
      (WithGroup h g).serviceName = h.serviceName ∧
      (WithGroup h g).version = h.version) ∧
    lookupAttr
      (buildRecord (WithAttrs (NewECSHandler 0 "svc" "1.0.0") [("k", Value.str "v")])
        ⟨⟨2025, 1, 1, 0, 0, 0, 0⟩, 0, "m", []⟩) "k" = none := by
  refine ⟨fun h as r => ⟨rfl, rfl, rfl, rfl⟩, fun h g r => ⟨rfl, rfl, rfl, rfl⟩, ?_⟩
  decide

/-- C3 counterexample: with a sink whose every write fails, `Handle` still
returns success — a write failure is not reported to the caller. -/
theorem c3_write_failure_swallowed_cex :
    HandleF (fun m => Except.ok (jsonMarshal m)) (fun _ => Except.error "broken pipe")
      (NewECSHandler 0 "svc" "1.0.0") ⟨⟨2025, 1, 1, 0, 0, 0, 0⟩, 0, "m", []⟩ =
      Except.ok () ∧
    (fun _ : String => (Except.error "broken pipe" : Except String Nat)) "x" =
      Except.error "broken pipe" :=
  ⟨rfl, rfl⟩

/-- C3 amended: a serialization failure is returned to the caller, but
when serialization succeeds `Handle` returns success unconditionally —
the outcome of the sink writes is discarded. -/
theorem c3_error_reporting_amended (marshal : AttrMap → Except String String)
    (write : String → Except String Nat) (h : ECSHandler) (r : Record) :
    (∀ e, marshal (buildRecord h r) = Except.error e →
      HandleF marshal write h r = Except.error e) ∧
    (∀ b, marshal (buildRecord h r) = Except.ok b →
      HandleF marshal write h r = Except.ok ()) := by
  constructor <;> intro x hx <;> simp [HandleF, hx]

/-- C3 amended, witness at concrete marshal/write outcomes. -/
theorem c3_error_reporting_amended_witness :
    HandleF (fun _ => Except.error "boom") (fun _ => Except.ok 1)
      (NewECSHandler 0 "svc" "1.0.0") ⟨⟨2025, 1, 1, 0, 0, 0, 0⟩, 0, "m", []⟩ =
      Except.error "boom" ∧
    HandleF (fun _ => Except.ok "x") (fun _ => Except.ok 1)
      (NewECSHandler 0 "svc" "1.0.0") ⟨⟨2025, 1, 1, 0, 0, 0, 0⟩, 0, "m", []⟩ =
      Except.ok () :=
  ⟨(c3_error_reporting_amended _ _ _ _).1 "boom" rfl,
   (c3_error_reporting_amended _ _ _ _).2 "x" rfl⟩

/-- C7: under the attribute key `duration`, a `time.Duration` value is
stored under `event.duration` as its integer count of nanoseconds, while
any other value is passed through to `event.duration` unchanged. -/
theorem c7_duration_mapping (attrs : AttrMap) :
    (∀ n : Int, mapAttribute attrs "duration" (Value.dur n) =
      setAttr attrs "event.duration" (Value.int n)) ∧
    (∀ s : String, mapAttribute attrs "duration" (Value.str s) =
      setAttr attrs "event.duration" (Value.str s)) ∧
    (∀ n : Int, mapAttribute attrs "duration" (Value.int n) =
      setAttr attrs "event.duration" (Value.int n)) :=
  ⟨fun _ => rfl, fun _ => rfl, fun _ => rfl⟩

/-- C4 counterexample: when a handler writes headers twice (404 then 500),
the proxy records 500 — the code of the last header-write, not the first —
while the underlying writer actually committed 404. -/
theorem c4_first_write_cex :
    (runWriter [WOp.writeHeader 404, WOp.writeHeader 500]).statusCode = 500 ∧
    firstWriteHeader [WOp.writeHeader 404, WOp.writeHeader 500] = some 404 ∧
    (runWriter [WOp.writeHeader 404, WOp.writeHeader 500]).sent = some 404 :=
  ⟨rfl, rfl, rfl⟩

/-- C4 amended: the proxy records the status code of the most recent
header-write (last write wins), and 200 when the handler never sets one;
in particular a handler that sets 404 and then writes a body yields
recorded status 404, and a handler that only writes a body yields 200. -/
theorem c4_status_capture_amended :
    (∀ ops : List WOp, (runWriter ops).statusCode = (lastWriteHeader ops).getD 200) ∧
    (runWriter [WOp.writeHeader 404, WOp.write "body"]).statusCode = 404 ∧
    (runWriter [WOp.write "pong"]).statusCode = 200 ∧
    (runWriter ([] : List WOp)).statusCode = 200 :=
  ⟨fun ops => foldl_applyOp_statusCode ops _, rfl, rfl, rfl⟩

/-- C5: for every completed request the middleware issues exactly one
increment of `http_requests_total` and exactly one observation on
`http_request_duration_seconds`, both labeled with exactly (method, route
pattern, recorded status code as a string); the labels do not depend on
the raw request path. -/
theorem c5_metrics_once (method rawPath rawPath' routePattern : String) (duration : Int)
    (ops : List WOp) :
    ((metricsMiddleware method rawPath routePattern duration ops).filter
      (isIncOf "http_requests_total")).length = 1 ∧
    ((metricsMiddleware method rawPath routePattern duration ops).filter
      (isObserveOf "http_request_duration_seconds")).length = 1 ∧
    metricsMiddleware method rawPath routePattern duration ops =
      [MetricCall.observe "http_request_duration_seconds" method routePattern
        (Nat.repr (runWriter ops).statusCode) duration,
       MetricCall.inc "http_requests_total" method routePattern
        (Nat.repr (runWriter ops).statusCode)] ∧
    metricsMiddleware method rawPath routePattern duration ops =
      metricsMiddleware method rawPath' routePattern duration ops :=
  ⟨rfl, rfl, rfl, rfl⟩

/-- C9: an attribute whose (mapped) key coincides with a fixed or injected
field name is inserted after the fixed fields and overwrites them: the
output record then carries the attribute's value in place of the event's
own message, timestamp, level, or service name. -/
theorem c9_attribute_shadowing (h : ECSHandler) (t : Instant) (l : Int) (msg : String)
    (v : Value) :
    lookupAttr (buildRecord h ⟨t, l, msg, [("message", v)]⟩) "message" = some v ∧
    lookupAttr (buildRecord h ⟨t, l, msg, [("@timestamp", v)]⟩) "@timestamp" = some v ∧
    lookupAttr (buildRecord h ⟨t, l, msg, [("log.level", v)]⟩) "log.level" = some v ∧
    lookupAttr (buildRecord h ⟨t, l, msg, [("service.name", v)]⟩) "service.name" = some v :=
  ⟨lookup_setAttr_same _ _ _, lookup_setAttr_same _ _ _, lookup_setAttr_same _ _ _,
   lookup_setAttr_same _ _ _⟩

/-- C10: the constructed encoder's minimum level is INFO: a DEBUG-level
record is not enabled and produces no output line, while INFO, WARN and
ERROR records are enabled and are encoded and written. -/
theorem c10_level_filtering (w : Nat) (n v : String) (r : Record) :
    (r.level = LevelDebug →
      Enabled (NewECSHandler w n v) r.level = false ∧
      logOutput (NewECSHandler w n v) r = []) ∧
    (r.level = LevelInfo ∨ r.level = LevelWarn ∨ r.level = LevelError →
      Enabled (NewECSHandler w n v) r.level = true ∧
      logOutput (NewECSHandler w n v) r =
        [jsonMarshal (buildRecord (NewECSHandler w n v) r), "\n"]) := by
  constructor
  · intro hl
    have he : Enabled (NewECSHandler w n v) r.level = false := by rw [hl]; rfl
    exact ⟨he, by simp [logOutput, he]⟩
  · intro hl
    have he : Enabled (NewECSHandler w n v) r.level = true := by
      rcases hl with h | h | h <;> rw [h] <;> rfl
    exact ⟨he, by simp [logOutput, he, Handle]⟩

/-- C10 witness: at level DEBUG the handler is disabled and silent; at
level INFO it is enabled. -/
theorem c10_level_filtering_witness :
    Enabled (NewECSHandler 0 "svc" "1.0.0") LevelDebug = false ∧
    logOutput (NewECSHandler 0 "svc" "1.0.0")
      ⟨⟨2025, 1, 1, 0, 0, 0, 0⟩, LevelDebug, "m", []⟩ = [] ∧
    Enabled (NewECSHandler 0 "svc" "1.0.0") LevelInfo = true :=
  ⟨((c10_level_filtering 0 "svc" "1.0.0"
      ⟨⟨2025, 1, 1, 0, 0, 0, 0⟩, LevelDebug, "m", []⟩).1 rfl).1,
   ((c10_level_filtering 0 "svc" "1.0.0"
      ⟨⟨2025, 1, 1, 0, 0, 0, 0⟩, LevelDebug, "m", []⟩).1 rfl).2,
   ((c10_level_filtering 0 "svc" "1.0.0"
      ⟨⟨2025, 1, 1, 0, 0, 0, 0⟩, LevelInfo, "m", []⟩).2 (Or.inl rfl)).1⟩

/-- C6 counterexample: a record carrying an attribute literally named
`@timestamp` yields an output record whose `@timestamp` field is the
attribute's value, not the formatted event timestamp, so the unconditional
reading of the claim fails. -/
theorem c6_fixed_fields_cex :
    lookupAttr
      (buildRecord (NewECSHandler 0 "svc" "1.0.0")
        ⟨⟨2025, 1, 2, 3, 4, 5, 0⟩, 0, "hi", [("@timestamp", Value.str "boom")]⟩)
      "@timestamp" = some (Value.str "boom") ∧
    formatRFC3339Nano ⟨2025, 1, 2, 3, 4, 5, 0⟩ = "2025-01-02T03:04:05Z" ∧
    ("boom" : String) ≠ "2025-01-02T03:04:05Z" :=
  ⟨by decide, by decide, by decide⟩

/-- C6 amended: provided no attribute's mapped key collides with one of
the six fixed or injected field names, the output record carries
`@timestamp` (the event time in RFC3339 with nanosecond precision, UTC),
`ecs.version`, `message`, `log.level`, `service.name` and
`service.version` with the documented values, and `Handle` writes the
record as one marshalled JSON object followed by a line separator. -/
theorem c6_fixed_fields_amended (h : ECSHandler) (r : Record)
    (hno : ∀ p ∈ r.attrs, mapAttributeKey p.1 ∉ fixedFieldNames) :
    lookupAttr (buildRecord h r) "@timestamp" =
      some (Value.str (formatRFC3339Nano r.time)) ∧
    lookupAttr (buildRecord h r) "ecs.version" = some (Value.str ECSVersion) ∧
    lookupAttr (buildRecord h r) "message" = some (Value.str r.message) ∧
    lookupAttr (buildRecord h r) "log.level" = some (Value.str (levelString r.level)) ∧
    lookupAttr (buildRecord h r) "service.name" = some (Value.str h.serviceName) ∧
    lookupAttr (buildRecord h r) "service.version" = some (Value.str h.version) ∧
    Handle h r = (Except.ok (), [jsonMarshal (buildRecord h r), "\n"]) := by
  have key : ∀ k0 ∈ fixedFieldNames, ∀ p ∈ r.attrs, mapAttributeKey p.1 ≠ k0 :=
    fun k0 hk0 p hp he => hno p hp (he ▸ hk0)
  refine ⟨?_, ?_, ?_, ?_, ?_, ?_, rfl⟩
  · rw [buildRecord,
      lookup_foldl_mapAttribute r.attrs (baseRecord h r) "@timestamp"
        (key "@timestamp" (by decide)), baseRecord,
      lookup_setAttr_other _ "service.version" "@timestamp" _ (by decide),
      lookup_setAttr_other _ "service.name" "@timestamp" _ (by decide),
      lookup_setAttr_other _ "log.level" "@timestamp" _ (by decide),
      lookup_setAttr_other _ "message" "@timestamp" _ (by decide),
      lookup_setAttr_other _ "ecs.version" "@timestamp" _ (by decide),
      lookup_setAttr_same _ "@timestamp" _]
  · rw [buildRecord,
      lookup_foldl_mapAttribute r.attrs (baseRecord h r) "ecs.version"
        (key "ecs.version" (by decide)), baseRecord,
      lookup_setAttr_other _ "service.version" "ecs.version" _ (by decide),
      lookup_setAttr_other _ "service.name" "ecs.version" _ (by decide),
      lookup_setAttr_other _ "log.level" "ecs.version" _ (by decide),
      lookup_setAttr_other _ "message" "ecs.version" _ (by decide),
      lookup_setAttr_same _ "ecs.version" _]
  · rw [buildRecord,
      lookup_foldl_mapAttribute r.attrs (baseRecord h r) "message"
        (key "message" (by decide)), baseRecord,
      lookup_setAttr_other _ "service.version" "message" _ (by decide),
      lookup_setAttr_other _ "service.name" "message" _ (by decide),
      lookup_setAttr_other _ "log.level" "message" _ (by decide),
      lookup_setAttr_same _ "message" _]
  · rw [buildRecord,
      lookup_foldl_mapAttribute r.attrs (baseRecord h r) "log.level"
        (key "log.level" (by decide)), baseRecord,
      lookup_setAttr_other _ "service.version" "log.level" _ (by decide),
      lookup_setAttr_other _ "service.name" "log.level" _ (by decide),
      lookup_setAttr_same _ "log.level" _]
  · rw [buildRecord,
      lookup_foldl_mapAttribute r.attrs (baseRecord h r) "service.name"
        (key "service.name" (by decide)), baseRecord,
      lookup_setAttr_other _ "service.version" "service.name" _ (by decide),
      lookup_setAttr_same _ "service.name" _]
  · rw [buildRecord,
      lookup_foldl_mapAttribute r.attrs (baseRecord h r) "service.version"
        (key "service.version" (by decide)), baseRecord,
      lookup_setAttr_same _ "service.version" _]

/-- C6 amended, witness at a concrete handler and record whose only
attribute maps away from the fixed field names. -/
theorem c6_fixed_fields_amended_witness :
    lookupAttr
      (buildRecord (NewECSHandler 0 "svc" "1.0.0")
        ⟨⟨2025, 1, 2, 3, 4, 5, 0⟩, 0, "hi", [("path", Value.str "/ping")]⟩)
      "message" = some (Value.str "hi") ∧
    lookupAttr
      (buildRecord (NewECSHandler 0 "svc" "1.0.0")
        ⟨⟨2025, 1, 2, 3, 4, 5, 0⟩, 0, "hi", [("path", Value.str "/ping")]⟩)
      "service.name" = some (Value.str "svc") :=
  ⟨(c6_fixed_fields_amended _ _ (by decide)).2.2.1,
   (c6_fixed_fields_amended _ _ (by decide)).2.2.2.2.1⟩

theorem getEnv_port_ne_empty (env : Env) : getEnv env "PORT" "8080" ≠ "" := by
  unfold getEnv
  split
  · assumption
  · decide

theorem load_eq (env : Env) :
    Load env =
      if (atoi (getEnv env "PORT" "8080")).isSome then
        Except.ok
          { server :=
              { port := getEnv env "PORT" "8080",
                readTimeout := getEnvDuration env "READ_TIMEOUT" (15 * second),
                writeTimeout := getEnvDuration env "WRITE_TIMEOUT" (15 * second),
                shutdownTimeout := getEnvDuration env "SHUTDOWN_TIMEOUT" (30 * second) },
            service := { name := ServiceName, version := ServiceVersion },
            environment := getEnv env "ENVIRONMENT" "development" }
      else
        Except.error ("invalid configuration: " ++
          ("invalid port number: " ++ getEnv env "PORT" "8080")) := by
  simp only [Load, Validate]
  rw [if_neg (getEnv_port_ne_empty env)]
  cases hat : atoi (getEnv env "PORT" "8080") with
  | none => simp [ServiceName, ServiceVersion]
  | some x => simp [ServiceName, ServiceVersion]

/-- C8 counterexample: an invalid duration setting does not abort startup:
with `READ_TIMEOUT` set to an unparseable string, `Load` succeeds and
silently substitutes the 15-second default. -/
theorem c8_invalid_duration_cex :
    parseDuration "bogus" = none ∧
    envBogus "READ_TIMEOUT" = "bogus" ∧
    Load envBogus = Except.ok cfgDefault ∧
    cfgDefault.server.readTimeout = 15 * second :=
  ⟨rfl, rfl, rfl, rfl⟩

/-- C8 amended: `Load` validates only the port (it must parse as an
integer; the service name and version are non-empty compile-time
constants); a set but invalid duration variable falls back silently to
its default rather than producing an error; unset variables receive the
documented defaults, in particular port 8080 and a 30-second shutdown
timeout. -/
theorem c8_config_amended (env : Env) :
    ((∃ c, Load env = Except.ok c) ↔ (atoi (getEnv env "PORT" "8080")).isSome = true) ∧
    (env "PORT" = "" → ∀ c, Load env = Except.ok c → c.server.port = "8080") ∧
    (env "SHUTDOWN_TIMEOUT" = "" → ∀ c, Load env = Except.ok c →
      c.server.shutdownTimeout = 30 * second) ∧
    (∀ c, Load env = Except.ok c →
      c.service.name = ServiceName ∧ c.service.version = ServiceVersion ∧
      c.server.port = getEnv env "PORT" "8080" ∧
      c.server.readTimeout = getEnvDuration env "READ_TIMEOUT" (15 * second) ∧
      c.server.writeTimeout = getEnvDuration env "WRITE_TIMEOUT" (15 * second) ∧
      c.server.shutdownTimeout = getEnvDuration env "SHUTDOWN_TIMEOUT" (30 * second) ∧
      c.environment = getEnv env "ENVIRONMENT" "development") := by
  have hload := load_eq env
  cases hat : atoi (getEnv env "PORT" "8080") with
  | none =>
    rw [hat] at hload
    simp only [Option.isSome_none, Bool.false_eq_true, if_false] at hload
    refine ⟨?_, ?_, ?_, ?_⟩ <;> simp [hload, hat]
  | some x =>
    rw [hat] at hload
    simp only [Option.isSome_some, if_true] at hload
    refine ⟨?_, ?_, ?_, ?_⟩
    · rw [hload]
      simp [hat]
    · intro hP c hc
      rw [hload] at hc
      injection hc with hcc
      subst hcc
      simp [getEnv, hP]
    · intro hS c hc
      rw [hload] at hc
      injection hc with hcc
      subst hcc
      simp [getEnvDuration, hS]
    · intro c hc
      rw [hload] at hc
      injection hc with hcc
      subst hcc
      exact ⟨rfl, rfl, rfl, rfl, rfl, rfl, rfl⟩

/-- C8 amended, witness in the empty environment: `Load` succeeds with the
documented defaults. -/
theorem c8_config_amended_witness :
    Load envEmpty = Except.ok cfgDefault ∧
    cfgDefault.server.port = "8080" ∧
    cfgDefault.server.shutdownTimeout = 30 * second ∧
    (atoi (getEnv envEmpty "PORT" "8080")).isSome = true :=
  have hld : Load envEmpty = Except.ok cfgDefault := rfl
  ⟨hld, (c8_config_amended envEmpty).2.1 rfl cfgDefault hld,
   (c8_config_amended envEmpty).2.2.1 rfl cfgDefault hld,
   (c8_config_amended envEmpty).1.mp ⟨cfgDefault, hld⟩⟩
